import Mathlib

/-!
Shallow embedding of the Smart_Parking admission and slot-allocation core.

The repository contains two parallel implementations:
  * the root modules (`agentic.py`, `sqlite_helper.py`), embedded in
    namespace `Root` below;
  * the `backend/` modules (`backend/agentic.py`, `backend/sqlite_helper.py`),
    embedded in namespace `Backend`.

Conventions of the embedding:
  * Python floats are embedded as exact rationals (ℚ); comparisons on
    distances and prices are faithful because no lossy float arithmetic is
    relied upon by any claim, and `math.isfinite` is identically true on
    exact rationals.
  * Python `round(x, 2)` is embedded as round-half-to-even on `100 * x`.
  * Python's stable `list.sort` is embedded as `List.insertionSort` (also a
    stable sort) under the same lexicographic key.
  * The SQLite tables are embedded as lists of records; each helper function
    is translated from its SQL statements (append for INSERT, map for
    UPDATE, find/filter for SELECT).
  * External collaborators (the Gemini / LLM decision oracle, the Langraph
    orchestration endpoint, wall-clock timestamps) are passed in as explicit
    parameters: `Option ℤ` for an oracle's returned slot id (none = the call
    failed, raised, or no client is configured).
  * Python truthiness tests on optional integers (`if slot_id:`) are
    embedded by `truthyInt`, which is false on `none` and on `some 0`.
-/

/-- Python `str.lower()`, embedded character by character (kernel-reducible,
unlike `String.toLower`'s byte-level implementation; identical on the ASCII
size and status strings this program uses). -/
def pyLower (s : String) : String := ⟨s.data.map Char.toLower⟩

/-- Python `str.upper()`, embedded character by character. -/
def pyUpper (s : String) : String := ⟨s.data.map Char.toUpper⟩

/-- Python truthiness of an optional integer: `None` and `0` are falsy. -/
def truthyInt : Option ℤ → Bool
  | some i => i != 0
  | none => false

/-- Round half-to-even to an integer, the tie-breaking used by Python's
built-in `round`. -/
def roundHalfEven (q : ℚ) : ℤ :=
  if q - ⌊q⌋ < 1/2 then ⌊q⌋
  else if 1/2 < q - ⌊q⌋ then ⌊q⌋ + 1
  else if ⌊q⌋ % 2 = 0 then ⌊q⌋ else ⌊q⌋ + 1

/-- Python `round(x, 2)`: round `100 * x` half-to-even, then divide by 100. -/
def round2 (q : ℚ) : ℚ := (roundHalfEven (q * 100) : ℚ) / 100

/-- `len(slots) or 1`: a slot count of 0 is replaced by 1 (both pricing
functions guard their division this way). -/
def totalSlots (numSlots : ℕ) : ℕ := if numSlots = 0 then 1 else numSlots

/-- The structured outcome dictionary returned by the admission workflows.
Fields that a given return statement does not mention are `none`. -/
structure AdmissionResult where
  status : String
  message : Option String
  reason : Option String
  plate : Option String
  model : Option String
  size : Option String
  slot_id : Option ℤ
  price : Option ℚ
  security : Option String
deriving DecidableEq

/-- A result dictionary carrying only a status and an optional message. -/
def statusResult (st : String) (msg : Option String) : AdmissionResult :=
  ⟨st, msg, none, none, none, none, none, none, none⟩

namespace Root

/-- A slot record of the root `mock_digital_twin.json`:
`{id, size, distance_m, status}`. -/
structure Slot where
  id : ℤ
  size : String
  distance_m : ℚ
  status : String
deriving DecidableEq

/-- A detected-vehicle record as produced by `vision_agent_process`. -/
structure Detected where
  plate : Option String
  model : Option String
  size : String
deriving DecidableEq

/-- The root digital-twin document: the slot inventory plus the optional
first `cnn_samples` entry used as the vision fallback. -/
structure Twin where
  slots : List Slot
  cnn_sample : Option Detected
deriving DecidableEq

/-- `size_rank = {"small":1,"medium":2,"large":3}` with `.get(s, 1)`:
unknown size strings rank 1. -/
def sizeRank (s : String) : ℕ :=
  if s = "small" then 1 else if s = "medium" then 2 else if s = "large" then 3 else 1

/-- The Python sort key `lambda x: (x["distance_m"], x["id"])` as a
lexicographic order on slots. -/
def slotKeyLE (a b : Slot) : Prop :=
  a.distance_m < b.distance_m ∨ (a.distance_m = b.distance_m ∧ a.id ≤ b.id)

instance : DecidableRel slotKeyLE := fun a b => by
  unfold slotKeyLE; infer_instance

/-- The eligibility filter of `local_slot_allocate`:
`s["status"] == "free" and size_rank.get(s["size"], 1) >= prefer`. -/
def eligibleFilter (prefer : ℕ) (s : Slot) : Bool :=
  s.status == "free" && decide (prefer ≤ sizeRank s.size)

/-- The `for s in dt["slots"]: if s["id"] == i: s["status"] = st; break` loop:
set the status of the first slot whose id matches, leave the rest unchanged. -/
def setFirstStatus (i : ℤ) (st : String) : List Slot → List Slot
  | [] => []
  | s :: rest =>
      if s.id = i then { s with status := st } :: rest
      else s :: setFirstStatus i st rest

/-- `local_slot_allocate(size)` from `agentic.py`: filter the free,
rank-compatible slots, sort (stably) by `(distance_m, id)`, reserve the first
as `"reserved (incoming)"` and return its id; `None` on an empty candidate
set. The mutated twin (the saved file) is returned alongside the result. -/
def local_slot_allocate (size : String) (dt : Twin) : Option ℤ × Twin :=
  let prefer := sizeRank (pyLower size)
  let candidates := dt.slots.filter (eligibleFilter prefer)
  if candidates.isEmpty then (none, dt)
  else
    match List.insertionSort slotKeyLE candidates with
    | [] => (none, dt)
    | chosen :: _ =>
        (some chosen.id,
         { dt with slots := setFirstStatus chosen.id "reserved (incoming)" dt.slots })

end Root

-- ===== basic lemmas about the order and the filter =====

instance : IsTrans Root.Slot Root.slotKeyLE := by
  constructor
  intro a b c hab hbc
  rcases hab with h1 | ⟨h1, h1'⟩ <;> rcases hbc with h2 | ⟨h2, h2'⟩
  · exact Or.inl (lt_trans h1 h2)
  · exact Or.inl (h2 ▸ h1)
  · exact Or.inl (h1 ▸ h2)
  · exact Or.inr ⟨h1.trans h2, le_trans h1' h2'⟩

instance : IsTotal Root.Slot Root.slotKeyLE := by
  constructor
  intro a b
  rcases lt_trichotomy a.distance_m b.distance_m with h | h | h
  · exact Or.inl (Or.inl h)
  · rcases le_total a.id b.id with h' | h'
    · exact Or.inl (Or.inr ⟨h, h'⟩)
    · exact Or.inr (Or.inr ⟨h.symm, h'⟩)
  · exact Or.inr (Or.inl h)

theorem slotKeyLE_refl (a : Root.Slot) : Root.slotKeyLE a a :=
  Or.inr ⟨rfl, le_refl a.id⟩

theorem eligibleFilter_iff (prefer : ℕ) (s : Root.Slot) :
    Root.eligibleFilter prefer s = true ↔
      s.status = "free" ∧ prefer ≤ Root.sizeRank s.size := by
  simp [Root.eligibleFilter]

theorem sortedHead_min {l : List Root.Slot} {chosen : Root.Slot} {rest : List Root.Slot}
    (hm : List.insertionSort Root.slotKeyLE l = chosen :: rest) :
    chosen ∈ l ∧ ∀ c ∈ l, Root.slotKeyLE chosen c := by
  have hperm := List.perm_insertionSort Root.slotKeyLE l
  rw [hm] at hperm
  constructor
  · exact hperm.mem_iff.mp (List.mem_cons_self chosen rest)
  · intro c hc
    have hc' : c ∈ chosen :: rest := hperm.mem_iff.mpr hc
    have hsorted := List.sorted_insertionSort Root.slotKeyLE l
    rw [hm] at hsorted
    rcases List.mem_cons.mp hc' with h | h
    · exact h ▸ slotKeyLE_refl chosen
    · exact (List.pairwise_cons.mp hsorted).1 c h

theorem local_slot_allocate_cases (size : String) (dt : Root.Twin) :
    (Root.local_slot_allocate size dt = (none, dt) ∧
      dt.slots.filter (Root.eligibleFilter (Root.sizeRank (pyLower size))) = []) ∨
    (∃ chosen rest,
      List.insertionSort Root.slotKeyLE
          (dt.slots.filter (Root.eligibleFilter (Root.sizeRank (pyLower size))))
        = chosen :: rest ∧
      Root.local_slot_allocate size dt =
        (some chosen.id,
         { dt with slots := Root.setFirstStatus chosen.id "reserved (incoming)" dt.slots })) := by
  by_cases he : dt.slots.filter (Root.eligibleFilter (Root.sizeRank (pyLower size))) = []
  · left
    refine ⟨?_, he⟩
    simp [Root.local_slot_allocate, he]
  · right
    have hne : (dt.slots.filter (Root.eligibleFilter (Root.sizeRank (pyLower size)))).isEmpty
        = false := by
      simpa [List.isEmpty_iff] using he
    rcases hm : List.insertionSort Root.slotKeyLE
        (dt.slots.filter (Root.eligibleFilter (Root.sizeRank (pyLower size))))
      with _ | ⟨chosen, rest⟩
    · exfalso
      apply he
      have hperm := List.perm_insertionSort Root.slotKeyLE
        (dt.slots.filter (Root.eligibleFilter (Root.sizeRank (pyLower size))))
      rw [hm] at hperm
      exact hperm.nil_eq.symm
    · refine ⟨chosen, rest, rfl, ?_⟩
      simp [Root.local_slot_allocate, hne, hm]

/-- C1: the deterministic local fallback `local_slot_allocate` returns the id
of a slot that is free and size-compatible under hierarchical mode
(`rank(slot.size) ≥ rank(vehicle.size)`), and that slot is minimal among all
eligible free slots by (distance ascending, id ascending); it returns `none`
exactly when no eligible free slot exists. -/
theorem C1_local_fallback_allocation (size : String) (dt : Root.Twin) :
    ((Root.local_slot_allocate size dt).1 = none ↔
      ∀ c ∈ dt.slots,
        ¬(c.status = "free" ∧ Root.sizeRank (pyLower size) ≤ Root.sizeRank c.size)) ∧
    ∀ i, (Root.local_slot_allocate size dt).1 = some i →
      ∃ s ∈ dt.slots, s.id = i ∧ s.status = "free" ∧
        Root.sizeRank (pyLower size) ≤ Root.sizeRank s.size ∧
        ∀ c ∈ dt.slots, c.status = "free" →
          Root.sizeRank (pyLower size) ≤ Root.sizeRank c.size →
          (s.distance_m < c.distance_m ∨ (s.distance_m = c.distance_m ∧ s.id ≤ c.id)) := by
  rcases local_slot_allocate_cases size dt with ⟨heq, hfil⟩ | ⟨chosen, rest, hm, heq⟩
  · rw [heq]
    constructor
    · simp only [true_iff, iff_true]
      intro c hc hcp
      have := List.filter_eq_nil_iff.mp hfil c hc
      rw [eligibleFilter_iff] at this
      exact this hcp
    · intro i hi
      simp at hi
  · have hfacts := sortedHead_min hm
    have hmemf : chosen ∈ dt.slots.filter (Root.eligibleFilter (Root.sizeRank (pyLower size))) :=
      hfacts.1
    have hmem : chosen ∈ dt.slots := (List.mem_filter.mp hmemf).1
    have helig := (eligibleFilter_iff _ _).mp (List.mem_filter.mp hmemf).2
    rw [heq]
    constructor
    · apply iff_of_false
      · simp
      · intro hall
        exact hall chosen hmem helig
    · intro i hi
      have hid : chosen.id = i := by simpa using hi
      refine ⟨chosen, hmem, hid, helig.1, helig.2, ?_⟩
      intro c hc hcfree hcrank
      have hcf : c ∈ dt.slots.filter (Root.eligibleFilter (Root.sizeRank (pyLower size))) :=
        List.mem_filter.mpr ⟨hc, (eligibleFilter_iff _ _).mpr ⟨hcfree, hcrank⟩⟩
      exact hfacts.2 c hcf

/-- A small concrete inventory used to instantiate the universally
quantified theorems: slot 2 (medium, 5 m) beats slot 1 (small, 10 m) for a
small vehicle, slot 3 is occupied. -/
def twinA : Root.Twin :=
  ⟨[⟨1, "small", 10, "free"⟩, ⟨2, "medium", 5, "free"⟩, ⟨3, "large", 5, "occupied"⟩], none⟩

theorem C1_local_fallback_allocation_witness :
    ∃ s ∈ twinA.slots, s.id = 2 ∧ s.status = "free" ∧
      Root.sizeRank (pyLower "small") ≤ Root.sizeRank s.size ∧
      ∀ c ∈ twinA.slots, c.status = "free" →
        Root.sizeRank (pyLower "small") ≤ Root.sizeRank c.size →
        (s.distance_m < c.distance_m ∨ (s.distance_m = c.distance_m ∧ s.id ≤ c.id)) :=
  (C1_local_fallback_allocation "small" twinA).2 2 (by decide)

theorem setFirstStatus_map_id (i : ℤ) (st : String) (l : List Root.Slot) :
    (Root.setFirstStatus i st l).map Root.Slot.id = l.map Root.Slot.id := by
  induction l with
  | nil => rfl
  | cons s rest ih =>
      by_cases h : s.id = i
      · simp [Root.setFirstStatus, h]
      · simp [Root.setFirstStatus, h, ih]

theorem setFirstStatus_id_status {l : List Root.Slot} {i : ℤ} {st : String}
    (hnd : (l.map Root.Slot.id).Nodup) :
    ∀ s' ∈ Root.setFirstStatus i st l, s'.id = i →
      s'.status = st ∨ ∀ s ∈ l, s.id ≠ i := by
  induction l with
  | nil => intro s' hs'; simp [Root.setFirstStatus] at hs'
  | cons s rest ih =>
      intro s' hs' hid
      by_cases h : s.id = i
      · simp only [Root.setFirstStatus, if_pos h] at hs'
        rcases List.mem_cons.mp hs' with he | he
        · exact Or.inl (by rw [he])
        · exfalso
          have : s'.id ∈ rest.map Root.Slot.id := List.mem_map.mpr ⟨s', he, rfl⟩
          rw [hid, ← h] at this
          exact (List.nodup_cons.mp (by simpa using hnd)).1 this
      · simp only [Root.setFirstStatus, if_neg h] at hs'
        rcases List.mem_cons.mp hs' with he | he
        · exact absurd (he ▸ hid) h
        · rcases ih (List.nodup_cons.mp (by simpa using hnd)).2 s' he hid with hst | hnone
          · exact Or.inl hst
          · refine Or.inr ?_
            intro t ht
            rcases List.mem_cons.mp ht with he' | he'
            · exact he' ▸ h
            · exact hnone t he'

theorem local_slot_allocate_some_free {size : String} {dt : Root.Twin} {i : ℤ}
    (h : (Root.local_slot_allocate size dt).1 = some i) :
    ∃ s ∈ dt.slots, s.id = i ∧ s.status = "free" := by
  rcases local_slot_allocate_cases size dt with ⟨heq, _⟩ | ⟨chosen, rest, hm, heq⟩
  · rw [heq] at h; simp at h
  · rw [heq] at h
    have hid : chosen.id = i := by simpa using h
    have hmemf := (sortedHead_min hm).1
    have hmem : chosen ∈ dt.slots := (List.mem_filter.mp hmemf).1
    have helig := (eligibleFilter_iff _ _).mp (List.mem_filter.mp hmemf).2
    exact ⟨chosen, hmem, hid, helig.1⟩

/-- C10: whenever `local_slot_allocate` returns a slot id `i` (for an
inventory with pairwise-distinct slot ids), the saved inventory records slot
`i` with the literal status `"reserved (incoming)"`, and a second
`local_slot_allocate` call on the saved inventory never returns `i` again,
for any vehicle size. -/
theorem C10_reservation_not_rechosen (size : String) (dt : Root.Twin)
    (hnd : (dt.slots.map Root.Slot.id).Nodup) (i : ℤ)
    (h : (Root.local_slot_allocate size dt).1 = some i) :
    (∃ s ∈ (Root.local_slot_allocate size dt).2.slots, s.id = i) ∧
    (∀ s ∈ (Root.local_slot_allocate size dt).2.slots, s.id = i →
        s.status = "reserved (incoming)") ∧
    ∀ size2, (Root.local_slot_allocate size2 (Root.local_slot_allocate size dt).2).1
        ≠ some i := by
  rcases local_slot_allocate_cases size dt with ⟨heq, _⟩ | ⟨chosen, rest, hm, heq⟩
  · rw [heq] at h; simp at h
  · have hid : chosen.id = i := by rw [heq] at h; simpa using h
    have hmemf := (sortedHead_min hm).1
    have hmem : chosen ∈ dt.slots := (List.mem_filter.mp hmemf).1
    have hslots : (Root.local_slot_allocate size dt).2.slots
        = Root.setFirstStatus chosen.id "reserved (incoming)" dt.slots := by
      rw [heq]
    have hstat : ∀ s ∈ (Root.local_slot_allocate size dt).2.slots, s.id = i →
        s.status = "reserved (incoming)" := by
      intro s hs hsid
      rw [hslots] at hs
      rcases setFirstStatus_id_status hnd s hs (hid ▸ hsid) with hst | hnone
      · exact hst
      · exact absurd rfl (hnone chosen hmem)
    refine ⟨?_, hstat, ?_⟩
    · have : i ∈ (Root.local_slot_allocate size dt).2.slots.map Root.Slot.id := by
        rw [hslots, setFirstStatus_map_id]
        exact List.mem_map.mpr ⟨chosen, hmem, hid⟩
      rcases List.mem_map.mp this with ⟨s, hs, hsid⟩
      exact ⟨s, hs, hsid⟩
    · intro size2 hcontra
      rcases local_slot_allocate_some_free hcontra with ⟨s', hs', hsid', hfree'⟩
      have := hstat s' hs' hsid'
      rw [this] at hfree'
      exact absurd hfree' (by decide)

theorem C10_reservation_not_rechosen_witness :
    (∃ s ∈ (Root.local_slot_allocate "small" twinA).2.slots, s.id = 2) ∧
    (∀ s ∈ (Root.local_slot_allocate "small" twinA).2.slots, s.id = 2 →
        s.status = "reserved (incoming)") ∧
    ∀ size2, (Root.local_slot_allocate size2 (Root.local_slot_allocate "small" twinA).2).1
        ≠ some 2 :=
  C10_reservation_not_rechosen "small" twinA (by decide) 2 (by decide)

-- ===== rounding lemmas =====

theorem floor_le_roundHalfEven (q : ℚ) : ⌊q⌋ ≤ roundHalfEven q := by
  unfold roundHalfEven
  split_ifs <;> omega

theorem roundHalfEven_le_floor_add_one (q : ℚ) : roundHalfEven q ≤ ⌊q⌋ + 1 := by
  unfold roundHalfEven
  split_ifs <;> omega

theorem roundHalfEven_mono {q r : ℚ} (h : q ≤ r) : roundHalfEven q ≤ roundHalfEven r := by
  rcases lt_or_eq_of_le (Int.floor_le_floor h) with hf | hf
  · have h1 := roundHalfEven_le_floor_add_one q
    have h2 := floor_le_roundHalfEven r
    omega
  · by_cases hq1 : q - ⌊q⌋ < 1/2
    · have e1 : roundHalfEven q = ⌊q⌋ := by unfold roundHalfEven; rw [if_pos hq1]
      rw [e1, hf]
      exact floor_le_roundHalfEven r
    · by_cases hq2 : 1/2 < q - ⌊q⌋
      · have hr2 : 1/2 < r - ⌊r⌋ := by rw [← hf]; linarith
        have hr1 : ¬(r - ⌊r⌋ < 1/2) := by linarith
        have e1 : roundHalfEven q = ⌊q⌋ + 1 := by
          unfold roundHalfEven; rw [if_neg hq1, if_pos hq2]
        have e2 : roundHalfEven r = ⌊r⌋ + 1 := by
          unfold roundHalfEven; rw [if_neg hr1, if_pos hr2]
        rw [e1, e2, hf]
      · by_cases hpar : ⌊q⌋ % 2 = 0
        · have e1 : roundHalfEven q = ⌊q⌋ := by
            unfold roundHalfEven; rw [if_neg hq1, if_neg hq2, if_pos hpar]
          rw [e1, hf]
          exact floor_le_roundHalfEven r
        · have e1 : roundHalfEven q = ⌊q⌋ + 1 := by
            unfold roundHalfEven; rw [if_neg hq1, if_neg hq2, if_neg hpar]
          have hr1 : ¬(r - ⌊r⌋ < 1/2) := by
            rw [← hf]
            have : (1:ℚ)/2 ≤ q - ⌊q⌋ := not_lt.mp hq1
            linarith
          by_cases hr2 : 1/2 < r - ⌊r⌋
          · have e2 : roundHalfEven r = ⌊r⌋ + 1 := by
              unfold roundHalfEven; rw [if_neg hr1, if_pos hr2]
            rw [e1, e2, hf]
          · have hparr : ¬(⌊r⌋ % 2 = 0) := by rw [← hf]; exact hpar
            have e2 : roundHalfEven r = ⌊r⌋ + 1 := by
              unfold roundHalfEven; rw [if_neg hr1, if_neg hr2, if_neg hparr]
            rw [e1, e2, hf]

theorem round2_mono {q r : ℚ} (h : q ≤ r) : round2 q ≤ round2 r := by
  unfold round2
  have : roundHalfEven (q * 100) ≤ roundHalfEven (r * 100) :=
    roundHalfEven_mono (by linarith)
  have hc : ((roundHalfEven (q * 100) : ℚ)) ≤ ((roundHalfEven (r * 100) : ℚ)) := by
    exact_mod_cast this
  linarith

-- ===== pricing functions =====

namespace Backend

/-- A slot record of the backend `mock_digital_twin.json`:
`{id, size, distance, status}` (the distance key differs from the root
twin's `distance_m`). -/
structure Slot where
  id : ℤ
  size : String
  distance : ℚ
  status : String
deriving DecidableEq

/-- The backend digital-twin document. -/
structure Twin where
  slots : List Slot
deriving DecidableEq

/-- `BASE_PRICE = 50` in `backend/agentic.py`. -/
def BASE_PRICE : ℚ := 50

/-- `ELASTICITY = 1.2` in `backend/agentic.py`. -/
def ELASTICITY : ℚ := 6/5

/-- The price computed by `pricing()` before rounding:
`BASE_PRICE * (1 + ELASTICITY * max(0, ratio - 0.5))` with
`ratio = occ / (len(slots) or 1)`. The ratio is NOT clamped here. -/
def computedPrice (numSlots occ : ℕ) : ℚ :=
  BASE_PRICE * (1 + ELASTICITY * max 0 ((occ : ℚ) / (totalSlots numSlots : ℚ) - 1/2))

/-- `pricing()` from `backend/agentic.py`:
`round(price if isfinite(price) else BASE_PRICE, 2)`. On exact rationals
`isfinite` is identically true, so the rounded computed price is returned.
Note this variant has no `price <= 0` guard. -/
def pricing (numSlots occ : ℕ) : ℚ := round2 (computedPrice numSlots occ)

end Backend

namespace Root

/-- The price computed by `dynamic_pricing_agent` before the guard:
`base_price * (1 + elasticity * delta)` with
`delta = clamp(occupied / total_slots, 0, 1) - 0.5`. -/
def computedPrice (base_price elasticity : ℚ) (numSlots occ : ℕ) : ℚ :=
  base_price * (1 + elasticity * (min (max ((occ : ℚ) / (totalSlots numSlots : ℚ)) 0) 1 - 1/2))

/-- `dynamic_pricing_agent` from `agentic.py`:
`if not isfinite(price) or price <= 0: price = base_price; return round(price, 2)`.
On exact rationals the `isfinite` disjunct is identically false, leaving the
`price <= 0` guard. -/
def dynamic_pricing_agent (base_price elasticity : ℚ) (numSlots occ : ℕ) : ℚ :=
  let price := computedPrice base_price elasticity numSlots occ
  round2 (if price ≤ 0 then base_price else price)

end Root

theorem totalSlots_pos (n : ℕ) : 0 < totalSlots n := by
  unfold totalSlots
  split_ifs <;> omega

theorem backend_computedPrice_mono {n occ occ' : ℕ} (h : occ ≤ occ') :
    Backend.computedPrice n occ ≤ Backend.computedPrice n occ' := by
  unfold Backend.computedPrice Backend.BASE_PRICE Backend.ELASTICITY
  have ht : (0 : ℚ) < (totalSlots n : ℚ) := by exact_mod_cast totalSlots_pos n
  have hr : ((occ : ℚ)) / (totalSlots n : ℚ) ≤ ((occ' : ℚ)) / (totalSlots n : ℚ) := by
    have hc : ((occ : ℚ)) ≤ ((occ' : ℚ)) := by exact_mod_cast h
    exact div_le_div_of_nonneg_right hc ht.le
  have hm : max 0 ((occ : ℚ) / (totalSlots n : ℚ) - 1/2)
      ≤ max 0 ((occ' : ℚ) / (totalSlots n : ℚ) - 1/2) :=
    max_le_max (le_refl 0) (by linarith)
  nlinarith [hm]

theorem backend_computedPrice_pos (n occ : ℕ) : 0 < Backend.computedPrice n occ := by
  unfold Backend.computedPrice Backend.BASE_PRICE Backend.ELASTICITY
  have h0 : (0 : ℚ) ≤ max 0 ((occ : ℚ) / (totalSlots n : ℚ) - 1/2) := le_max_left 0 _
  nlinarith

/-- C3: the backend hierarchical-elasticity pricing variant is monotonically
non-decreasing in the occupancy ratio above the target ratio 0.5 and returns
exactly the base price (which is its own 2-decimal rounding) for every
occupancy at or below the target ratio. -/
theorem C3_pricing_monotone_above_target_base_below :
    (∀ numSlots occ occ' : ℕ,
      1/2 ≤ (occ : ℚ) / (totalSlots numSlots : ℚ) → occ ≤ occ' →
      Backend.pricing numSlots occ ≤ Backend.pricing numSlots occ') ∧
    ∀ numSlots occ : ℕ,
      (occ : ℚ) / (totalSlots numSlots : ℚ) ≤ 1/2 →
      Backend.pricing numSlots occ = Backend.BASE_PRICE := by
  constructor
  · intro n occ occ' _ h
    exact round2_mono (backend_computedPrice_mono h)
  · intro n occ h
    have hmax : max 0 ((occ : ℚ) / (totalSlots n : ℚ) - 1/2) = 0 :=
      max_eq_left (by linarith)
    unfold Backend.pricing
    unfold Backend.computedPrice
    rw [hmax]
    norm_num [Backend.BASE_PRICE, Backend.ELASTICITY, round2, roundHalfEven]

theorem ratio_six_of_ten : (1:ℚ)/2 ≤ ((6:ℕ) : ℚ) / ((totalSlots 10 : ℕ) : ℚ) := by
  norm_num [totalSlots]

theorem ratio_five_of_ten : ((5:ℕ) : ℚ) / ((totalSlots 10 : ℕ) : ℚ) ≤ 1/2 := by
  norm_num [totalSlots]

theorem C3_pricing_monotone_above_target_base_below_witness :
    Backend.pricing 10 6 ≤ Backend.pricing 10 8 ∧
    Backend.pricing 10 5 = Backend.BASE_PRICE :=
  ⟨C3_pricing_monotone_above_target_base_below.1 10 6 8 ratio_six_of_ten (by decide),
   C3_pricing_monotone_above_target_base_below.2 10 5 ratio_five_of_ten⟩

/-- C4: both pricing functions are total functions of their numeric inputs
(the embedding is a total Lean function; on exact rationals `isfinite` is
identically true). The root variant returns the rounded base price whenever
the computed price is ≤ 0; the backend variant's computed price is always
strictly positive, so its missing `<= 0` guard is never exercised; and every
returned price is an integer number of hundredths, i.e. rounded to 2
decimal places. -/
theorem C4_pricing_guard_and_rounding (bp el : ℚ) (ns occ ns2 occ2 : ℕ) :
    (Root.computedPrice bp el ns occ ≤ 0 →
      Root.dynamic_pricing_agent bp el ns occ = round2 bp) ∧
    (∃ k : ℤ, Root.dynamic_pricing_agent bp el ns occ = (k : ℚ) / 100) ∧
    0 < Backend.computedPrice ns2 occ2 ∧
    ∃ k : ℤ, Backend.pricing ns2 occ2 = (k : ℚ) / 100 := by
  refine ⟨?_, ?_, backend_computedPrice_pos ns2 occ2, ?_⟩
  · intro h
    unfold Root.dynamic_pricing_agent
    simp only []
    rw [if_pos h]
  · exact ⟨_, rfl⟩
  · exact ⟨_, rfl⟩

theorem root_computedPrice_neg_example : Root.computedPrice 50 (-10) 1 5 ≤ 0 := by
  norm_num [Root.computedPrice, totalSlots]

theorem C4_pricing_guard_and_rounding_witness :
    Root.computedPrice 50 (-10) 1 5 ≤ 0 ∧
    Root.dynamic_pricing_agent 50 (-10) 1 5 = round2 50 :=
  ⟨root_computedPrice_neg_example,
   (C4_pricing_guard_and_rounding 50 (-10) 1 5 1 0).1 root_computedPrice_neg_example⟩

namespace Root

/-- The candidate-acceptance loop used by the Gemini and Langraph tiers of
`slot_manager_allocate`:
`for s in slots: if s["id"] == slot_id and s["status"] == "free": reserve`.
Returns the updated slot list when a matching free slot was found, `none`
when the loop fell through. -/
def reserveIfFree (i : ℤ) : List Slot → Option (List Slot)
  | [] => none
  | s :: rest =>
      if s.id = i ∧ s.status = "free" then
        some ({ s with status := "reserved (incoming)" } :: rest)
      else (reserveIfFree i rest).map (s :: ·)

/-- One remote tier of `slot_manager_allocate`: the `if slot_id:`
truthiness test plus the acceptance loop
`for s in slots: if s["id"] == slot_id and s["status"] == "free": reserve and return`.
The source inlines this block verbatim in both the Gemini and the Langraph
tier, so it is factored out once here; `fallback` is the next tier. -/
def tryCandidate (i : ℤ) (dt : Twin) (fallback : Option ℤ × Twin) : Option ℤ × Twin :=
  if i ≠ 0 then
    match reserveIfFree i dt.slots with
    | some slots1 => (some i, { dt with slots := slots1 })
    | none => fallback
  else fallback

/-- `slot_manager_allocate(size, vehicle)` from `agentic.py`: try the Gemini
decision oracle, then (when configured) the Langraph orchestration endpoint,
then the deterministic local fallback. `gem`/`lg` are the oracle results
(`none` = the remote call failed, returned null, or is unconfigured);
`lgConfigured` is `LANGRAPH_KEY and LANGRAPH_URL`. -/
def slot_manager_allocate (size : String) (gem : Option ℤ) (lgConfigured : Bool)
    (lg : Option ℤ) (dt : Twin) : Option ℤ × Twin :=
  let step3 := local_slot_allocate size dt
  let step2 :=
    if lgConfigured then
      match lg with
      | some i => tryCandidate i dt step3
      | none => step3
    else step3
  match gem with
  | some i => tryCandidate i dt step2
  | none => step2

end Root

namespace Backend

/-- `size_compatible_strict` from `backend/agentic.py`: exact size match. -/
def size_compatible_strict (slot_size vehicle_size : String) : Bool :=
  slot_size == vehicle_size

/-- Python `min(free, key=lambda s: s["distance"])`: the first element of
minimal distance (strict comparison keeps the earlier element on ties). -/
def minByDistance (x : Slot) (xs : List Slot) : Slot :=
  xs.foldl (fun best c => if c.distance < best.distance then c else best) x

/-- The `for s in dt["slots"]: if s["id"] == slot_id:` acceptance loop of
`llm_select_slot`: mark the first slot with a matching id `"occupied"`
(regardless of its current status — the code only prints a warning) and
return the updated list; `none` when no slot has that id (the loop fell
through to `return None`). The candidate may be `none` (the LLM returned
`null`), in which case no id ever matches. -/
def markOccupied (cand : Option ℤ) : List Slot → Option (List Slot)
  | [] => none
  | s :: rest =>
      if some s.id = cand then some ({ s with status := "occupied" } :: rest)
      else (markOccupied cand rest).map (s :: ·)

/-- The candidate chosen by `llm_select_slot` from the non-empty filtered
free list `f :: rest`: if exactly one option, take it directly; otherwise
ask the LLM (`llmRes`: `none` = the call raised, so the closest-distance
`min(free, key=distance)` fallback runs; `some j` = the parsed `slot_id`
field, itself possibly null). -/
def llmCandidate (f : Slot) (rest : List Slot) (llmRes : Option (Option ℤ)) :
    Option ℤ :=
  if rest.isEmpty then some f.id
  else
    match llmRes with
    | some j => j
    | none => some (minByDistance f rest).id

/-- `llm_select_slot(vehicle)` from `backend/agentic.py`: filter the slots
that are free AND strictly size-matched; if none, return `None`; otherwise
the candidate (`llmCandidate`) is marked `"occupied"` by id lookup alone and
returned. -/
def llm_select_slot (vehicle_size : String) (llmRes : Option (Option ℤ)) (dt : Twin) :
    Option ℤ × Twin :=
  let free := dt.slots.filter fun s =>
    s.status == "free" && size_compatible_strict s.size vehicle_size
  match free with
  | [] => (none, dt)
  | f :: rest =>
      match markOccupied (llmCandidate f rest llmRes) dt.slots with
      | some slots1 => (llmCandidate f rest llmRes, { dt with slots := slots1 })
      | none => (none, dt)

end Backend

theorem reserveIfFree_some {i : ℤ} {l l1 : List Root.Slot}
    (h : Root.reserveIfFree i l = some l1) :
    ∃ s ∈ l, s.id = i ∧ s.status = "free" := by
  induction l generalizing l1 with
  | nil => simp [Root.reserveIfFree] at h
  | cons s rest ih =>
      by_cases hc : s.id = i ∧ s.status = "free"
      · exact ⟨s, List.mem_cons_self s rest, hc⟩
      · simp only [Root.reserveIfFree, if_neg hc] at h
        rcases hr : Root.reserveIfFree i rest with _ | l2
        · rw [hr] at h; simp at h
        · rcases ih hr with ⟨t, ht, h1, h2⟩
          exact ⟨t, List.mem_cons_of_mem s ht, h1, h2⟩

theorem markOccupied_some {cand : Option ℤ} {l l1 : List Backend.Slot}
    (h : Backend.markOccupied cand l = some l1) :
    ∃ s ∈ l, some s.id = cand := by
  induction l generalizing l1 with
  | nil => simp [Backend.markOccupied] at h
  | cons s rest ih =>
      by_cases hc : some s.id = cand
      · exact ⟨s, List.mem_cons_self s rest, hc⟩
      · simp only [Backend.markOccupied, if_neg hc] at h
        rcases hr : Backend.markOccupied cand rest with _ | l2
        · rw [hr] at h; simp at h
        · rcases ih hr with ⟨t, ht, h1⟩
          exact ⟨t, List.mem_cons_of_mem s ht, h1⟩

theorem tryCandidate_cases {i : ℤ} {dt : Root.Twin} {fb : Option ℤ × Root.Twin} {j : ℤ}
    (h : (Root.tryCandidate i dt fb).1 = some j) :
    (∃ s ∈ dt.slots, s.id = j ∧ s.status = "free") ∨ fb.1 = some j := by
  unfold Root.tryCandidate at h
  split_ifs at h with hi
  · rcases hr : Root.reserveIfFree i dt.slots with _ | l1
    · rw [hr] at h; exact Or.inr h
    · rw [hr] at h
      simp only [] at h
      have hij : i = j := by simpa using h
      rcases reserveIfFree_some hr with ⟨s, hs, h1, h2⟩
      exact Or.inl ⟨s, hs, hij ▸ h1, h2⟩
  · exact Or.inr h

theorem step2_some_free (size : String) (lgC : Bool) (lg : Option ℤ) (dt : Root.Twin) {j : ℤ}
    (hj : ((if lgC then
        match lg with
        | some i0 => Root.tryCandidate i0 dt (Root.local_slot_allocate size dt)
        | none => Root.local_slot_allocate size dt
      else Root.local_slot_allocate size dt) : Option ℤ × Root.Twin).1 = some j) :
    ∃ s ∈ dt.slots, s.id = j ∧ s.status = "free" := by
  by_cases hl : lgC = true
  · rw [if_pos hl] at hj
    rcases lg with _ | i0
    · exact local_slot_allocate_some_free hj
    · rcases tryCandidate_cases hj with hfree | hfb
      · exact hfree
      · exact local_slot_allocate_some_free hfb
  · rw [if_neg hl] at hj
    exact local_slot_allocate_some_free hj

theorem slot_manager_allocate_some_free {size : String} {gem lg : Option ℤ}
    {lgC : Bool} {dt : Root.Twin} {i : ℤ}
    (h : (Root.slot_manager_allocate size gem lgC lg dt).1 = some i) :
    ∃ s ∈ dt.slots, s.id = i ∧ s.status = "free" := by
  unfold Root.slot_manager_allocate at h
  simp only [] at h
  rcases gem with _ | i0
  · exact step2_some_free size lgC lg dt h
  · rcases tryCandidate_cases h with hfree | hfb
    · exact hfree
    · exact step2_some_free size lgC lg dt hfb

theorem llm_select_slot_some_mem {vsize : String} {llmRes : Option (Option ℤ)}
    {bdt : Backend.Twin} {j : ℤ}
    (hj : (Backend.llm_select_slot vsize llmRes bdt).1 = some j) :
    ∃ s ∈ bdt.slots, s.id = j := by
  unfold Backend.llm_select_slot at hj
  simp only [] at hj
  split at hj
  · simp at hj
  · split at hj
    next slots1 hmk =>
      rcases markOccupied_some hmk with ⟨s, hs, hcand⟩
      exact ⟨s, hs, Option.some.inj (hcand.trans hj)⟩
    next => simp at hj

/-- A backend inventory on which the LLM candidate is accepted without any
re-validation: slots 1 and 2 are free small slots, slot 3 is an occupied
large slot. -/
def twinC5 : Backend.Twin :=
  ⟨[⟨1, "small", 5, "free"⟩, ⟨2, "small", 7, "free"⟩, ⟨3, "large", 1, "occupied"⟩]⟩

/-- C5 counterexample: for a small vehicle, the backend engine accepts the
LLM candidate slot 3 — returning it and marking it occupied — even though
slot 3's status is `"occupied"` (not free) and its size `"large"` is not
eligible under the active strict mode (nor equal-size compatible). The
claim that a candidate is accepted only if still free and size-eligible is
therefore false. -/
theorem C5_counterexample_candidate_not_validated :
    (Backend.llm_select_slot "small" (some (some 3)) twinC5).1 = some 3 ∧
    ∀ s ∈ twinC5.slots, s.id = 3 → s.status = "occupied" ∧ s.size = "large" := by
  decide

/-- C5 amended: the root engine accepts an oracle or orchestration candidate
only if a slot with that id is still free (returning only ids of slots that
were free in the pre-state), and falls through to the next tier when the
candidate's slot is not free — but it does not re-check size eligibility.
The backend engine accepts any candidate id that exists in the inventory,
regardless of its status or size. -/
theorem C5_amended_candidate_revalidation (size : String) (gem lg : Option ℤ)
    (lgC : Bool) (dt : Root.Twin) (vsize : String) (llmRes : Option (Option ℤ))
    (bdt : Backend.Twin) :
    (∀ i, (Root.slot_manager_allocate size gem lgC lg dt).1 = some i →
      ∃ s ∈ dt.slots, s.id = i ∧ s.status = "free") ∧
    (∀ i, i ≠ 0 → Root.reserveIfFree i dt.slots = none →
      Root.slot_manager_allocate size (some i) lgC lg dt
        = Root.slot_manager_allocate size none lgC lg dt) ∧
    (∀ j, (Backend.llm_select_slot vsize llmRes bdt).1 = some j →
      ∃ s ∈ bdt.slots, s.id = j) := by
  refine ⟨?_, ?_, ?_⟩
  · intro i h
    exact slot_manager_allocate_some_free h
  · intro i hi hr
    simp [Root.slot_manager_allocate, Root.tryCandidate, hi, hr]
  · intro j hj
    exact llm_select_slot_some_mem hj

theorem C5_amended_candidate_revalidation_witness :
    (∃ s ∈ twinA.slots, s.id = 2 ∧ s.status = "free") ∧
    Root.slot_manager_allocate "small" (some 9) false none twinA
      = Root.slot_manager_allocate "small" none false none twinA ∧
    ∃ s ∈ twinC5.slots, s.id = 3 :=
  ⟨(C5_amended_candidate_revalidation "small" (some 2) none false twinA "small"
      (some (some 3)) twinC5).1 2 (by decide),
   (C5_amended_candidate_revalidation "small" (some 9) none false twinA "small"
      (some (some 3)) twinC5).2.1 9 (by decide) (by decide),
   (C5_amended_candidate_revalidation "small" (some 9) none false twinA "small"
      (some (some 3)) twinC5).2.2 3 (by decide)⟩

-- ===== ledger models =====

namespace Root

/-- A row of the root `bookings` table (`sqlite_helper.py`); `model` is
optional because the workflow passes the possibly-null vision model. -/
structure Booking where
  plate : String
  model : Option String
  size : String
  slot_id : Option ℤ
  status : String
deriving DecidableEq

/-- A row of the root `entries` table: `{plate, model, size, slot_id, price}`.
This schema has NO exit column. -/
structure Entry where
  plate : String
  model : Option String
  size : String
  slot_id : ℤ
  price : ℚ
deriving DecidableEq

/-- A row of the `vehicles` table: `{plate, allowed, note}`. -/
structure VehicleRec where
  plate : String
  allowed : ℤ
  note : Option String
deriving DecidableEq

/-- `create_booking` from `sqlite_helper.py`:
`INSERT OR REPLACE INTO bookings ... status='pending'` keyed by the unique
uppercased plate — any existing row for the plate is replaced. -/
def create_booking (plate : String) (model : Option String) (size : String)
    (slot_id : Option ℤ) (bs : List Booking) : List Booking :=
  bs.filter (fun b => b.plate != pyUpper plate) ++ [⟨pyUpper plate, model, size, slot_id, "pending"⟩]

/-- `get_booking_by_plate`: `SELECT ... WHERE plate = ?` (uppercased). -/
def get_booking_by_plate (plate : String) (bs : List Booking) : Option Booking :=
  bs.find? (fun b => b.plate == pyUpper plate)

/-- `mark_booking_assigned`: `UPDATE bookings SET slot_id=?, status='assigned'
WHERE plate = ?`. -/
def mark_booking_assigned (plate : String) (slot_id : ℤ) (bs : List Booking) :
    List Booking :=
  bs.map fun b =>
    if b.plate = pyUpper plate then { b with slot_id := some slot_id, status := "assigned" }
    else b

/-- `mark_entry` from the root `sqlite_helper.py`: an unconditional
`INSERT INTO entries` — there is no duplicate check. -/
def mark_entry (plate : String) (model : Option String) (size : String)
    (slot_id : ℤ) (price : ℚ) (es : List Entry) : List Entry :=
  es ++ [⟨pyUpper plate, model, size, slot_id, price⟩]

/-- `get_occupancy_counts` from the root `sqlite_helper.py`:
`SELECT COUNT(*) FROM entries` (every row ever inserted) and the count of
bookings whose status is assigned or pending. -/
def get_occupancy_counts (es : List Entry) (bs : List Booking) : ℕ × ℕ :=
  (es.length, (bs.filter fun b => b.status == "assigned" || b.status == "pending").length)

/-- `security_agent_verify` from `agentic.py`: look the uppercased plate up
in the `vehicles` table; `(allowed == 1, note or "")` on a hit, default
allow with the literal note when no record exists. -/
def security_agent_verify (plate : String) (vs : List VehicleRec) : Bool × String :=
  match vs.find? (fun v => v.plate == pyUpper plate) with
  | some r => (r.allowed == 1, r.note.getD "")
  | none => (true, "no record (default allow)")

end Root

namespace Backend

/-- A row of the backend `bookings` table (`backend/sqlite_helper.py`). -/
structure Booking where
  plate : String
  model : String
  size : String
  slot_id : Option ℤ
  status : String
deriving DecidableEq

/-- A row of the backend `entries` table, including the nullable
`exited_at` column (NULL = the vehicle is still parked). `slot_id` is also
nullable: `persist_node` passes `state.get("slot_id")`, which is `None`
when slot assignment failed. -/
structure Entry where
  plate : String
  model : String
  size : String
  slot_id : Option ℤ
  price : ℚ
  entered_at : String
  exited_at : Option String
deriving DecidableEq

/-- `get_booking_by_plate` from `backend/sqlite_helper.py` (no uppercasing). -/
def get_booking_by_plate (plate : String) (bs : List Booking) : Option Booking :=
  bs.find? (fun b => b.plate == plate)

/-- `mark_booking_assigned` from `backend/sqlite_helper.py`:
`UPDATE bookings SET slot_id=?, status='entered' WHERE plate=?`. -/
def mark_booking_assigned (plate : String) (slot_id : Option ℤ) (bs : List Booking) :
    List Booking :=
  bs.map fun b =>
    if b.plate = plate then { b with slot_id := slot_id, status := "entered" }
    else b

/-- `mark_entry` from `backend/sqlite_helper.py`: first
`SELECT id FROM entries WHERE plate = ? AND exited_at IS NULL`; if a row
exists, skip the insert (duplicate suppression), otherwise insert the new
entry with `exited_at = NULL`. `now` is the wall-clock timestamp. -/
def mark_entry (plate model size : String) (slot_id : Option ℤ) (price : ℚ) (now : String)
    (es : List Entry) : List Entry :=
  if es.any (fun e => e.plate == plate && e.exited_at.isNone) then es
  else es ++ [⟨plate, model, size, slot_id, price, now, none⟩]

/-- `mark_exit` from `backend/sqlite_helper.py`:
`UPDATE entries SET exited_at = ? WHERE plate = ? AND exited_at IS NULL`. -/
def mark_exit (plate : String) (now : String) (es : List Entry) : List Entry :=
  es.map fun e =>
    if e.plate = plate ∧ e.exited_at = none then { e with exited_at := some now } else e

/-- `get_occupancy_counts` from `backend/sqlite_helper.py`:
`SELECT COUNT(*) FROM entries WHERE exited_at IS NULL`. -/
def get_occupancy_counts (es : List Entry) : ℕ :=
  (es.filter fun e => e.exited_at.isNone).length

end Backend

/-- The number of open (unexited) backend entries for a given plate — the
row set inspected by `mark_entry`'s duplicate check. -/
def openEntryCountFor (plate : String) (es : List Backend.Entry) : ℕ :=
  (es.filter fun e => e.plate == plate && e.exited_at.isNone).length

/-- C2 counterexample: the root module's `mark_entry` (`sqlite_helper.py`)
performs an unconditional INSERT with no duplicate check, so calling the
Persist step twice for the same plate appends two entry records (and the
root schema records no exits, so both are open) — the second call is not a
no-op. -/
theorem C2_counterexample_root_mark_entry_duplicates :
    (Root.mark_entry "KA01AB1234" (some "sedan") "small" 1 50
        (Root.mark_entry "KA01AB1234" (some "sedan") "small" 1 50 [])).length = 2 ∧
    Root.mark_entry "KA01AB1234" (some "sedan") "small" 1 50
        (Root.mark_entry "KA01AB1234" (some "sedan") "small" 1 50 [])
      ≠ Root.mark_entry "KA01AB1234" (some "sedan") "small" 1 50 [] := by
  decide

/-- C2 amended: the backend ledger's `mark_entry`
(`backend/sqlite_helper.py`) is the variant with duplicate suppression: a
second call for the same plate is a no-op (whatever the other arguments),
and starting from a state with no open entry for the plate, one call
produces exactly one open entry. The root module's `mark_entry` appends
unconditionally. -/
theorem C2_amended_backend_mark_entry_idempotent
    (es : List Backend.Entry) (p m s : String) (sl : Option ℤ) (pr : ℚ) (t : String)
    (m2 s2 : String) (sl2 : Option ℤ) (pr2 : ℚ) (t2 : String) :
    Backend.mark_entry p m2 s2 sl2 pr2 t2 (Backend.mark_entry p m s sl pr t es)
      = Backend.mark_entry p m s sl pr t es ∧
    (openEntryCountFor p es = 0 →
      openEntryCountFor p (Backend.mark_entry p m s sl pr t es) = 1) := by
  constructor
  · by_cases h : es.any (fun e => e.plate == p && e.exited_at.isNone)
    · unfold Backend.mark_entry
      rw [if_pos h, if_pos h]
    · have h2 : (es ++ [(⟨p, m, s, sl, pr, t, none⟩ : Backend.Entry)]).any
          (fun e => e.plate == p && e.exited_at.isNone) = true := by
        simp
      unfold Backend.mark_entry
      rw [if_neg h, if_pos h2]
  · intro h0
    have hfil : es.filter (fun e => e.plate == p && e.exited_at.isNone) = [] :=
      List.length_eq_zero.mp h0
    have hany : ¬ (es.any (fun e => e.plate == p && e.exited_at.isNone) = true) := by
      intro hx
      rcases List.any_eq_true.mp hx with ⟨a, ha, hpa⟩
      have hmem : a ∈ es.filter (fun e => e.plate == p && e.exited_at.isNone) :=
        List.mem_filter.mpr ⟨ha, hpa⟩
      rw [hfil] at hmem
      simp at hmem
    unfold Backend.mark_entry
    rw [if_neg hany]
    unfold openEntryCountFor
    rw [List.filter_append, hfil]
    simp

theorem C2_amended_backend_mark_entry_idempotent_witness :
    Backend.mark_entry "KA01AB1234" "suv" "large" (some 2) 60 "t2"
        (Backend.mark_entry "KA01AB1234" "sedan" "small" (some 1) 50 "t1" [])
      = Backend.mark_entry "KA01AB1234" "sedan" "small" (some 1) 50 "t1" [] ∧
    openEntryCountFor "KA01AB1234"
        (Backend.mark_entry "KA01AB1234" "sedan" "small" (some 1) 50 "t1" []) = 1 :=
  ⟨(C2_amended_backend_mark_entry_idempotent [] "KA01AB1234" "sedan" "small" (some 1)
      50 "t1" "suv" "large" (some 2) 60 "t2").1,
   (C2_amended_backend_mark_entry_idempotent [] "KA01AB1234" "sedan" "small" (some 1)
      50 "t1" "suv" "large" (some 2) 60 "t2").2 rfl⟩

/-- Modelled from the spec's glossary (`Open entry: an Entry record with no
recorded exit time`): the number of entries whose exit field is `none`. -/
def specOpenEntryCount (es : List Backend.Entry) : ℕ :=
  (es.filter fun e => e.exited_at = none).length

/-- A two-row entry table with one open and one exited entry, separating the
open-entry count from the total row count. -/
def entriesC8 : List Backend.Entry :=
  [⟨"AA11", "sedan", "small", some 1, 50, "t1", none⟩,
   ⟨"BB22", "suv", "large", some 2, 55, "t2", some "t3"⟩]

/-- C8: the backend `get_occupancy_counts` — the count handed to the pricing
computation — equals the spec's open-entry count (entries with no exit
recorded) on every ledger state, and differs from the total number of rows
ever appended as soon as some entry has exited; the root module's count is
the raw row count, and the root schema records no exits at all, so there
every row is an open entry. -/
theorem C8_occupancy_is_open_entry_count :
    (∀ es : List Backend.Entry, Backend.get_occupancy_counts es = specOpenEntryCount es) ∧
    Backend.get_occupancy_counts entriesC8 = 1 ∧
    entriesC8.length = 2 ∧
    ∀ (es : List Root.Entry) (bs : List Root.Booking),
      (Root.get_occupancy_counts es bs).1 = es.length := by
  refine ⟨?_, by decide, by decide, ?_⟩
  · intro es
    unfold Backend.get_occupancy_counts specOpenEntryCount
    congr 1
    apply List.filter_congr
    intro a _
    cases a.exited_at <;> simp
  · intro es bs
    rfl

-- ===== admission workflows =====

namespace Root

/-- A camera payload (`trigger_entry` request body): each key may be absent. -/
structure Payload where
  plate : Option String
  model : Option String
  size : Option String
deriving DecidableEq

/-- The root persistent state: the digital-twin file plus the three SQLite
tables. -/
structure DB where
  bookings : List Booking
  entries : List Entry
  vehicles : List VehicleRec
deriving DecidableEq

structure State where
  twin : Twin
  db : DB
deriving DecidableEq

/-- `vision_agent_process` from `agentic.py`: a truthy payload plate is
uppercased (model defaults to "unknown", size to "small"); otherwise the
first `cnn_samples` record of the twin is used, or a no-plate record. -/
def vision_agent_process (p : Payload) (sample : Option Detected) : Detected :=
  match p.plate with
  | some pl =>
      if pl ≠ "" then ⟨some (pyUpper pl), some (p.model.getD "unknown"), p.size.getD "small"⟩
      else sample.getD ⟨none, none, "small"⟩
  | none => sample.getD ⟨none, none, "small"⟩

/-- Lines 204-212 of `agentic.py`: mark every slot with the assigned id
`"occupied"` (this loop has no break), append the entry row, and return the
`"ok"` result dictionary. -/
def finalizeEntry (plate : String) (model : Option String) (size : String)
    (note : String) (price : ℚ) (i : ℤ) (st1 : State) : AdmissionResult × State :=
  (⟨"ok", none, none, some plate, model, some size, some i, some price, some note⟩,
   ⟨⟨st1.twin.slots.map (fun s => if s.id = i then { s with status := "occupied" } else s),
     st1.twin.cnn_sample⟩,
    ⟨st1.db.bookings, mark_entry plate model size i price st1.db.entries,
     st1.db.vehicles⟩⟩)

/-- The booked-without-slot branch: allocate via the cascade; if the result
is truthy, also mark the booking assigned. -/
def allocForBooking (plate size : String) (gem : Option ℤ) (lgC : Bool) (lg : Option ℤ)
    (st : State) : Option ℤ × State :=
  let r := slot_manager_allocate size gem lgC lg st.twin
  match r.1 with
  | some i =>
      if i ≠ 0 then
        (some i, ⟨r.2, ⟨mark_booking_assigned plate i st.db.bookings, st.db.entries,
          st.db.vehicles⟩⟩)
      else (some i, ⟨r.2, st.db⟩)
  | none => (none, ⟨r.2, st.db⟩)

/-- The walk-in branch: allocate via the cascade and create a `"pending"`
booking carrying whatever the cascade returned (possibly null). -/
def allocWalkIn (plate : String) (model : Option String) (size : String)
    (gem : Option ℤ) (lgC : Bool) (lg : Option ℤ) (st : State) : Option ℤ × State :=
  let r := slot_manager_allocate size gem lgC lg st.twin
  (r.1, ⟨r.2, ⟨create_booking plate model size r.1 st.db.bookings, st.db.entries,
    st.db.vehicles⟩⟩)

/-- The SlotResolve branch of `entry_recognition_agent` (lines 188-199):
a pending/assigned booking with a truthy slot id is reused (marking the
booking assigned); a pending/assigned booking without one allocates; any
other case is treated as a walk-in. -/
def resolveSlot (plate : String) (model : Option String) (size : String)
    (gem : Option ℤ) (lgC : Bool) (lg : Option ℤ) (st : State) : Option ℤ × State :=
  match get_booking_by_plate plate st.db.bookings with
  | some b =>
      if b.status = "pending" ∨ b.status = "assigned" then
        match b.slot_id with
        | some sid =>
            if sid ≠ 0 then
              (some sid, ⟨st.twin, ⟨mark_booking_assigned plate sid st.db.bookings,
                st.db.entries, st.db.vehicles⟩⟩)
            else allocForBooking plate size gem lgC lg st
        | none => allocForBooking plate size gem lgC lg st
      else allocWalkIn plate model size gem lgC lg st
  | none => allocWalkIn plate model size gem lgC lg st

/-- `entry_recognition_agent` from `agentic.py`: vision, reservation lookup,
security check (short-circuit to `"rejected"`), pricing, slot resolution
(short-circuit to `"no_slot"` on a falsy slot), then persist (`finalizeEntry`)
and return the `"ok"` result. `init_db` is schema-only and has no effect on
the embedded state. -/
def entry_recognition_agent (p : Payload) (gem : Option ℤ) (lgC : Bool) (lg : Option ℤ)
    (bp el : ℚ) (st : State) : AdmissionResult × State :=
  let vision := vision_agent_process p st.twin.cnn_sample
  match vision.plate with
  | none => (statusResult "error" (some "no plate detected"), st)
  | some plate =>
      if plate = "" then (statusResult "error" (some "no plate detected"), st)
      else
        let size := vision.size
        let sec := security_agent_verify plate st.db.vehicles
        if sec.1 then
          let price := dynamic_pricing_agent bp el st.twin.slots.length
            (get_occupancy_counts st.db.entries st.db.bookings).1
          let rs := resolveSlot plate vision.model size gem lgC lg st
          match rs.1 with
          | some i =>
              if i = 0 then (statusResult "no_slot" (some "No suitable slot available"), rs.2)
              else finalizeEntry plate vision.model size sec.2 price i rs.2
          | none => (statusResult "no_slot" (some "No suitable slot available"), rs.2)
        else ({ statusResult "rejected" none with reason := some sec.2 }, st)

end Root

namespace Backend

/-- The backend persistent state: the backend twin file plus the bookings
and entries tables. -/
structure State where
  twin : Twin
  bookings : List Booking
  entries : List Entry
deriving DecidableEq

/-- `entry_recognition_agent` from `backend/agentic.py`: a falsy payload
plate short-circuits to `"no_plate"` before the graph is built; then the
LangGraph pipeline reservation → (router) → slot → pricing → persist runs.
The conditional router guards ONLY the reservation edge (lines 406-414), so
only `no_booking` (and a reservation error) terminate early; the
slot → pricing → persist edges are unconditional. A failed slot assignment
therefore still flows through `pricing_node` and `persist_node`, which call
`mark_booking_assigned(plate, None)` and `mark_entry(..., None, price)` and
overwrite the status with `"entered"`; `slot_id` in the final dictionary is
set only when `slot_node` succeeded (modelled as the `Option`-valued `r.1`).
The result accumulates the state fields written along the way (the internal
`booking` entry of the state dictionary is not modelled as a result field;
the pure ledger model cannot raise, so `persist_node`'s except-branch is
unreachable). -/
def entry_recognition_agent (payload_plate : Option String)
    (llmRes : Option (Option ℤ)) (now : String) (st : State) :
    AdmissionResult × State :=
  match payload_plate with
  | none => (statusResult "no_plate" none, st)
  | some plate =>
      if plate = "" then (statusResult "no_plate" none, st)
      else
        match get_booking_by_plate plate st.bookings with
        | none =>
            (⟨"no_booking", some ("Vehicle " ++ plate ++ " not pre-booked"), none,
              some plate, none, none, none, none, none⟩, st)
        | some b =>
            let r := llm_select_slot b.size llmRes st.twin
            let price := pricing r.2.slots.length (get_occupancy_counts st.entries)
            (⟨"entered", some ("Vehicle " ++ plate ++ " entered successfully"), none,
              some plate, some b.model, some b.size, r.1, some price, none⟩,
             ⟨r.2, mark_booking_assigned plate r.1 st.bookings,
              mark_entry plate b.model b.size r.1 price now st.entries⟩)

end Backend

/-- C6: when the security check denies the (truthy) detected plate, the
root workflow terminates with outcome `"rejected"` carrying the denial note,
and the returned state is the input state unchanged: no slot status changes,
no booking mutation, no entry row; the result carries no price and no slot
id (pricing and allocation are skipped). -/
theorem C6_security_denial_is_pure_rejection (p : Root.Payload) (gem : Option ℤ)
    (lgC : Bool) (lg : Option ℤ) (bp el : ℚ) (st : Root.State) (pl : String)
    (hpl : (Root.vision_agent_process p st.twin.cnn_sample).plate = some pl)
    (hne : pl ≠ "")
    (hsec : (Root.security_agent_verify pl st.db.vehicles).1 = false) :
    Root.entry_recognition_agent p gem lgC lg bp el st
      = (⟨"rejected", none, some (Root.security_agent_verify pl st.db.vehicles).2,
          none, none, none, none, none, none⟩, st) := by
  unfold Root.entry_recognition_agent
  simp only [hpl, hne, hsec, statusResult, if_false, ite_false]
  simp [hne]

/-- A state whose `vehicles` table denies plate XYZ999, with one free slot
and empty ledgers. -/
def stC6 : Root.State :=
  ⟨⟨[⟨1, "small", 5, "free"⟩], none⟩,
   ⟨[], [], [⟨"XYZ999", 0, some "stolen vehicle"⟩]⟩⟩

def payloadC6 : Root.Payload := ⟨some "xyz999", some "sedan", some "small"⟩

theorem C6_security_denial_is_pure_rejection_witness :
    Root.entry_recognition_agent payloadC6 none false none 50 1 stC6
      = (⟨"rejected", none, some (Root.security_agent_verify "XYZ999" stC6.db.vehicles).2,
          none, none, none, none, none, none⟩, stC6) :=
  C6_security_denial_is_pure_rejection payloadC6 none false none 50 1 stC6 "XYZ999"
    (by decide) (by decide) (by decide)

def payloadEmpty : Root.Payload := ⟨none, none, none⟩

def stEmptyTwin : Root.State := ⟨⟨[], none⟩, ⟨[], [], []⟩⟩

def bstEmpty : Backend.State := ⟨⟨[]⟩, [], []⟩

/-- C7 counterexample: on a missing plate (and no vision fallback sample)
the root Admission Workflow returns a result whose status field is the
literal `"error"` (message "no plate detected"), not `"no_plate"`. -/
theorem C7_counterexample_root_status_error :
    (Root.entry_recognition_agent payloadEmpty none false none 50 1 stEmptyTwin).1.status
      = "error" ∧
    (Root.entry_recognition_agent payloadEmpty none false none 50 1 stEmptyTwin).1.status
      ≠ "no_plate" := by
  decide

/-- C7 amended: the backend workflow terminates immediately with status
`"no_plate"` on a missing or empty plate (state untouched); the legacy root
workflow also terminates immediately but with status `"error"` and message
"no plate detected". -/
theorem C7_amended_no_plate_outcomes :
    (∀ (llmRes : Option (Option ℤ)) (now : String) (st : Backend.State),
      Backend.entry_recognition_agent none llmRes now st
        = (statusResult "no_plate" none, st) ∧
      Backend.entry_recognition_agent (some "") llmRes now st
        = (statusResult "no_plate" none, st)) ∧
    ∀ (p : Root.Payload) (gem : Option ℤ) (lgC : Bool) (lg : Option ℤ) (bp el : ℚ)
      (st : Root.State),
      (Root.vision_agent_process p st.twin.cnn_sample).plate = none →
      Root.entry_recognition_agent p gem lgC lg bp el st
        = (statusResult "error" (some "no plate detected"), st) := by
  refine ⟨?_, ?_⟩
  · intro llmRes now st
    exact ⟨rfl, by simp [Backend.entry_recognition_agent]⟩
  · intro p gem lgC lg bp el st hnone
    unfold Root.entry_recognition_agent
    simp only [hnone]

theorem C7_amended_no_plate_outcomes_witness :
    Backend.entry_recognition_agent none none "t" bstEmpty
      = (statusResult "no_plate" none, bstEmpty) ∧
    Root.entry_recognition_agent payloadEmpty none false none 50 1 stEmptyTwin
      = (statusResult "error" (some "no plate detected"), stEmptyTwin) :=
  ⟨(C7_amended_no_plate_outcomes.1 none "t" bstEmpty).1,
   C7_amended_no_plate_outcomes.2 payloadEmpty none false none 50 1 stEmptyTwin (by decide)⟩

def payloadC9 : Root.Payload := ⟨some "GA07X100", some "hatch", some "small"⟩

def stC9 : Root.State := ⟨⟨[⟨1, "small", 3, "free"⟩], none⟩, ⟨[], [], []⟩⟩

/-- C9 counterexample: a walk-in admission that terminates successfully
(root status `"ok"`, slot 1 assigned) leaves the booking the workflow itself
created in status `"pending"` — not assigned/entered as the claim requires. -/
theorem C9_counterexample_walkin_booking_stays_pending :
    (Root.entry_recognition_agent payloadC9 none false none 50 1 stC9).1.status = "ok" ∧
    (Root.entry_recognition_agent payloadC9 none false none 50 1 stC9).1.slot_id
      = some 1 ∧
    (Root.entry_recognition_agent payloadC9 none false none 50 1 stC9).2.db.bookings
      = [⟨"GA07X100", some "hatch", "small", some 1, "pending"⟩] := by
  decide

theorem occupyAll_mem {slots : List Root.Slot} {i : ℤ} :
    ∀ s ∈ slots.map (fun s => if s.id = i then { s with status := "occupied" } else s),
      s.id = i → s.status = "occupied" := by
  intro s hs hid
  rcases List.mem_map.mp hs with ⟨a, _, ha⟩
  by_cases h : a.id = i
  · rw [if_pos h] at ha
    rw [← ha]
  · rw [if_neg h] at ha
    exact absurd (ha ▸ hid) h

theorem mark_booking_assigned_status {plate : String} {i : ℤ} {bs : List Root.Booking} :
    ∀ b ∈ Root.mark_booking_assigned plate i bs, b.plate = pyUpper plate →
      b.status = "assigned" := by
  intro b hb hpl
  rcases List.mem_map.mp hb with ⟨a, _, ha⟩
  by_cases h : a.plate = pyUpper plate
  · rw [if_pos h] at ha
    rw [← ha]
  · rw [if_neg h] at ha
    exact absurd (ha ▸ hpl) h

theorem backend_mark_booking_entered {plate : String} {i : Option ℤ}
    {bs : List Backend.Booking} :
    ∀ b ∈ Backend.mark_booking_assigned plate i bs, b.plate = plate →
      b.status = "entered" := by
  intro b hb hpl
  rcases List.mem_map.mp hb with ⟨a, _, ha⟩
  by_cases h : a.plate = plate
  · rw [if_pos h] at ha
    rw [← ha]
  · rw [if_neg h] at ha
    exact absurd (ha ▸ hpl) h

theorem markOccupied_marks {j : ℤ} {l l1 : List Backend.Slot}
    (h : Backend.markOccupied (some j) l = some l1) :
    ∃ s ∈ l1, s.id = j ∧ s.status = "occupied" := by
  induction l generalizing l1 with
  | nil => simp [Backend.markOccupied] at h
  | cons s rest ih =>
      by_cases hc : some s.id = (some j : Option ℤ)
      · simp only [Backend.markOccupied, if_pos hc] at h
        have hl : { s with status := "occupied" } :: rest = l1 := Option.some.inj h
        refine ⟨{ s with status := "occupied" }, ?_, ?_, rfl⟩
        · rw [← hl]
          exact List.mem_cons_self _ _
        · simpa using hc
      · simp only [Backend.markOccupied, if_neg hc] at h
        rcases hr : Backend.markOccupied (some j) rest with _ | l2
        · rw [hr] at h; simp at h
        · rw [hr] at h
          have hl : s :: l2 = l1 := by simpa using h
          rcases ih hr with ⟨t, ht, h1, h2⟩
          exact ⟨t, by rw [← hl]; exact List.mem_cons_of_mem s ht, h1, h2⟩

theorem openEntryCountFor_zero_any_false {plate : String} {es : List Backend.Entry}
    (h0 : openEntryCountFor plate es = 0) :
    ¬ (es.any (fun e => e.plate == plate && e.exited_at.isNone) = true) := by
  have hfil : es.filter (fun e => e.plate == plate && e.exited_at.isNone) = [] :=
    List.length_eq_zero.mp h0
  intro hx
  rcases List.any_eq_true.mp hx with ⟨a, ha, hpa⟩
  have hmem : a ∈ es.filter (fun e => e.plate == plate && e.exited_at.isNone) :=
    List.mem_filter.mpr ⟨ha, hpa⟩
  rw [hfil] at hmem
  simp at hmem

theorem create_booking_pending_mem (plate : String) (model : Option String) (size : String)
    (sid : Option ℤ) (bs : List Root.Booking) :
    ∃ b ∈ Root.create_booking plate model size sid bs,
      b.plate = pyUpper plate ∧ b.status = "pending" := by
  refine ⟨⟨pyUpper plate, model, size, sid, "pending"⟩, ?_, rfl, rfl⟩
  unfold Root.create_booking
  exact List.mem_append_right _ (List.mem_singleton.mpr rfl)

theorem resolveSlot_bookings_walkin {plate : String} {model : Option String}
    {size : String} {gem : Option ℤ} {lgC : Bool} {lg : Option ℤ} {st : Root.State}
    (h : Root.get_booking_by_plate plate st.db.bookings = none) :
    (Root.resolveSlot plate model size gem lgC lg st).2.db.bookings
      = Root.create_booking plate model size
          (Root.slot_manager_allocate size gem lgC lg st.twin).1 st.db.bookings := by
  unfold Root.resolveSlot
  rw [h]
  rfl

theorem resolveSlot_bookings_assigned {plate : String} {model : Option String}
    {size : String} {gem : Option ℤ} {lgC : Bool} {lg : Option ℤ} {st : Root.State}
    {b0 : Root.Booking} {i : ℤ}
    (h : Root.get_booking_by_plate plate st.db.bookings = some b0)
    (hst : b0.status = "pending" ∨ b0.status = "assigned")
    (hi : (Root.resolveSlot plate model size gem lgC lg st).1 = some i)
    (hnz : i ≠ 0) :
    (Root.resolveSlot plate model size gem lgC lg st).2.db.bookings
      = Root.mark_booking_assigned plate i st.db.bookings := by
  have halloc : (Root.allocForBooking plate size gem lgC lg st).1 = some i →
      (Root.allocForBooking plate size gem lgC lg st).2.db.bookings
        = Root.mark_booking_assigned plate i st.db.bookings := by
    intro hj
    unfold Root.allocForBooking at *
    simp only [] at hj ⊢
    rcases hr : (Root.slot_manager_allocate size gem lgC lg st.twin).1 with _ | j
    · simp only [hr] at hj
      simp at hj
    · simp only [hr] at hj ⊢
      by_cases hz : j ≠ 0
      · rw [if_pos hz] at hj ⊢
        have hji : j = i := by simpa using hj
        rw [hji]
      · rw [if_neg hz] at hj
        have hji : j = i := by simpa using hj
        exact absurd (hji ▸ (not_not.mp hz)) hnz
  unfold Root.resolveSlot at *
  simp only [h, if_pos hst] at hi ⊢
  rcases hsid : b0.slot_id with _ | sid
  · simp only [hsid] at hi ⊢
    exact halloc hi
  · simp only [hsid] at hi ⊢
    by_cases hz : sid ≠ 0
    · rw [if_pos hz] at hi ⊢
      have hsi : sid = i := by simpa using hi
      rw [hsi]
    · rw [if_neg hz] at hi ⊢
      exact halloc hi

theorem finalizeEntry_spec (plate : String) (model : Option String) (size note : String)
    (price : ℚ) (i : ℤ) (st1 : Root.State) :
    (Root.finalizeEntry plate model size note price i st1).1.status = "ok" ∧
    (Root.finalizeEntry plate model size note price i st1).1.plate = some plate ∧
    (Root.finalizeEntry plate model size note price i st1).1.slot_id = some i ∧
    (Root.finalizeEntry plate model size note price i st1).1.price = some price ∧
    (∀ s ∈ (Root.finalizeEntry plate model size note price i st1).2.twin.slots,
      s.id = i → s.status = "occupied") ∧
    (∃ e ∈ (Root.finalizeEntry plate model size note price i st1).2.db.entries,
      e.plate = pyUpper plate ∧ e.price = price) ∧
    (Root.finalizeEntry plate model size note price i st1).2.db.bookings
      = st1.db.bookings := by
  refine ⟨rfl, rfl, rfl, rfl, ?_, ?_, rfl⟩
  · exact occupyAll_mem
  · refine ⟨⟨pyUpper plate, model, size, i, price⟩, ?_, rfl, rfl⟩
    unfold Root.finalizeEntry Root.mark_entry
    simp

theorem backend_mark_entry_appended {plate : String} {es : List Backend.Entry}
    (m s : String) (sid : Option ℤ) (pr : ℚ) (now : String)
    (h0 : openEntryCountFor plate es = 0) :
    ∃ e ∈ Backend.mark_entry plate m s sid pr now es,
      e.plate = plate ∧ e.price = pr ∧ e.slot_id = sid := by
  unfold Backend.mark_entry
  rw [if_neg (openEntryCountFor_zero_any_false h0)]
  exact ⟨⟨plate, m, s, sid, pr, now, none⟩,
    List.mem_append_right _ (List.mem_singleton.mpr rfl), rfl, rfl, rfl⟩

theorem llm_select_slot_occupies {vsize : String} {llmRes : Option (Option ℤ)}
    {bdt : Backend.Twin} {j : ℤ}
    (hj : (Backend.llm_select_slot vsize llmRes bdt).1 = some j) :
    ∃ s ∈ (Backend.llm_select_slot vsize llmRes bdt).2.slots,
      s.id = j ∧ s.status = "occupied" := by
  unfold Backend.llm_select_slot at hj ⊢
  rcases hfil : bdt.slots.filter
      (fun s => s.status == "free" && Backend.size_compatible_strict s.size vsize)
    with _ | ⟨f, rest⟩
  · simp only [hfil] at hj
    simp at hj
  · simp only [hfil] at hj ⊢
    rcases hmk : Backend.markOccupied (Backend.llmCandidate f rest llmRes) bdt.slots
      with _ | slots1
    · simp only [hmk] at hj
      simp at hj
    · simp only [hmk] at hj ⊢
      rw [hj] at hmk
      exact markOccupied_marks hmk

/-- C9 amended: on a root success (literal `"ok"`) the assigned slot is
marked occupied, an Entry with the computed price is appended, and the
Booking ends `"assigned"` for pre-booked plates — but a walk-in booking the
root workflow itself creates remains `"pending"`. In the backend workflow
the graph's router guards only the reservation edge, so EVERY run that
passes reservation ends with status `"entered"`: the booking is marked
`"entered"`, an Entry carrying the computed price and the (possibly null)
slot id is appended (under the ledger's duplicate suppression), and only
when a slot id is actually present is that slot marked occupied — a failed
assignment still terminates `"entered"` with a null slot id and no slot
occupied (third conjunct). -/
theorem C9_amended_persist_effects :
    (∀ (p : Root.Payload) (gem : Option ℤ) (lgC : Bool) (lg : Option ℤ) (bp el : ℚ)
        (st : Root.State) (res : AdmissionResult) (st' : Root.State),
      Root.entry_recognition_agent p gem lgC lg bp el st = (res, st') →
      res.status = "ok" →
      ∃ pl i price0, res.plate = some pl ∧ res.slot_id = some i ∧
        res.price = some price0 ∧
        (∀ s ∈ st'.twin.slots, s.id = i → s.status = "occupied") ∧
        (∃ e ∈ st'.db.entries, e.plate = pyUpper pl ∧ e.price = price0) ∧
        (Root.get_booking_by_plate pl st.db.bookings = none →
          ∃ b ∈ st'.db.bookings, b.plate = pyUpper pl ∧ b.status = "pending") ∧
        (∀ b0, Root.get_booking_by_plate pl st.db.bookings = some b0 →
          b0.status = "pending" ∨ b0.status = "assigned" →
          ∀ b ∈ st'.db.bookings, b.plate = pyUpper pl → b.status = "assigned")) ∧
    (∀ (plate : String) (llmRes : Option (Option ℤ)) (now : String)
        (st : Backend.State) (res : AdmissionResult) (st' : Backend.State),
      Backend.entry_recognition_agent (some plate) llmRes now st = (res, st') →
      res.status = "entered" →
      ∃ price0, res.price = some price0 ∧
        (∀ b ∈ st'.bookings, b.plate = plate → b.status = "entered") ∧
        (openEntryCountFor plate st.entries = 0 →
          ∃ e ∈ st'.entries, e.plate = plate ∧ e.price = price0 ∧
            e.slot_id = res.slot_id) ∧
        (∀ sid, res.slot_id = some sid →
          ∃ s ∈ st'.twin.slots, s.id = sid ∧ s.status = "occupied")) ∧
    (∀ (plate : String) (llmRes : Option (Option ℤ)) (now : String)
        (st : Backend.State) (b : Backend.Booking),
      plate ≠ "" →
      Backend.get_booking_by_plate plate st.bookings = some b →
      (Backend.llm_select_slot b.size llmRes st.twin).1 = none →
      (Backend.entry_recognition_agent (some plate) llmRes now st).1.status
        = "entered" ∧
      (Backend.entry_recognition_agent (some plate) llmRes now st).1.slot_id
        = none) := by
  refine ⟨?_, ?_, ?_⟩
  · intro p gem lgC lg bp el st res st' heq hok
    unfold Root.entry_recognition_agent at heq
    rcases hv : (Root.vision_agent_process p st.twin.cnn_sample).plate with _ | pl
    · simp only [hv] at heq
      have hres := congrArg Prod.fst heq
      simp only [] at hres
      rw [← hres] at hok
      simp [statusResult] at hok
    · simp only [hv] at heq
      by_cases hne : pl = ""
      · rw [if_pos hne] at heq
        have hres := congrArg Prod.fst heq
        simp only [] at hres
        rw [← hres] at hok
        simp [statusResult] at hok
      · rw [if_neg hne] at heq
        rcases hsec : (Root.security_agent_verify pl st.db.vehicles).1 with _ | _
        · simp only [hsec, Bool.false_eq_true, if_false] at heq
          have hres := congrArg Prod.fst heq
          simp only [] at hres
          rw [← hres] at hok
          simp [statusResult] at hok
        · simp only [hsec, if_true] at heq
          rcases hrs : (Root.resolveSlot pl (Root.vision_agent_process p st.twin.cnn_sample).model
              (Root.vision_agent_process p st.twin.cnn_sample).size gem lgC lg st).1
            with _ | i
          · simp only [hrs] at heq
            have hres := congrArg Prod.fst heq
            simp only [] at hres
            rw [← hres] at hok
            simp [statusResult] at hok
          · simp only [hrs] at heq
            by_cases hz : i = 0
            · rw [if_pos hz] at heq
              have hres := congrArg Prod.fst heq
              simp only [] at hres
              rw [← hres] at hok
              simp [statusResult] at hok
            · rw [if_neg hz] at heq
              have hres := congrArg Prod.fst heq
              have hst := congrArg Prod.snd heq
              simp only [] at hres hst
              have hspec := finalizeEntry_spec pl
                (Root.vision_agent_process p st.twin.cnn_sample).model
                (Root.vision_agent_process p st.twin.cnn_sample).size
                (Root.security_agent_verify pl st.db.vehicles).2
                (Root.dynamic_pricing_agent bp el st.twin.slots.length
                  (Root.get_occupancy_counts st.db.entries st.db.bookings).1)
                i
                (Root.resolveSlot pl (Root.vision_agent_process p st.twin.cnn_sample).model
                  (Root.vision_agent_process p st.twin.cnn_sample).size gem lgC lg st).2
              refine ⟨pl, i,
                Root.dynamic_pricing_agent bp el st.twin.slots.length
                  (Root.get_occupancy_counts st.db.entries st.db.bookings).1,
                ?_, ?_, ?_, ?_, ?_, ?_, ?_⟩
              · rw [← hres]; exact hspec.2.1
              · rw [← hres]; exact hspec.2.2.1
              · rw [← hres]; exact hspec.2.2.2.1
              · rw [← hst]; exact hspec.2.2.2.2.1
              · rw [← hst]; exact hspec.2.2.2.2.2.1
              · intro hwalk
                have hbk : st'.db.bookings
                    = Root.create_booking pl
                        (Root.vision_agent_process p st.twin.cnn_sample).model
                        (Root.vision_agent_process p st.twin.cnn_sample).size
                        (Root.slot_manager_allocate
                          (Root.vision_agent_process p st.twin.cnn_sample).size gem lgC lg
                          st.twin).1 st.db.bookings := by
                  rw [← hst]
                  rw [hspec.2.2.2.2.2.2]
                  exact resolveSlot_bookings_walkin hwalk
                rw [hbk]
                exact create_booking_pending_mem pl _ _ _ _
              · intro b0 hb0 hst0 b hb hbpl
                have hbk : st'.db.bookings
                    = Root.mark_booking_assigned pl i st.db.bookings := by
                  rw [← hst]
                  rw [hspec.2.2.2.2.2.2]
                  exact resolveSlot_bookings_assigned hb0 hst0 hrs hz
                rw [hbk] at hb
                exact mark_booking_assigned_status b hb hbpl
  · intro plate llmRes now st res st' heq hok
    unfold Backend.entry_recognition_agent at heq
    simp only [] at heq
    by_cases hne : plate = ""
    · rw [if_pos hne] at heq
      have hres := congrArg Prod.fst heq
      simp only [] at hres
      rw [← hres] at hok
      simp [statusResult] at hok
    · rw [if_neg hne] at heq
      rcases hb : Backend.get_booking_by_plate plate st.bookings with _ | b
      · simp only [hb] at heq
        have hres := congrArg Prod.fst heq
        simp only [] at hres
        rw [← hres] at hok
        simp at hok
      · simp only [hb] at heq
        have hres := congrArg Prod.fst heq
        have hst := congrArg Prod.snd heq
        simp only [] at hres hst
        refine ⟨Backend.pricing
            (Backend.llm_select_slot b.size llmRes st.twin).2.slots.length
            (Backend.get_occupancy_counts st.entries), ?_, ?_, ?_, ?_⟩
        · rw [← hres]
        · intro bk hbk hbpl
          rw [← hst] at hbk
          exact backend_mark_booking_entered bk hbk hbpl
        · intro h0
          rw [← hst, ← hres]
          exact backend_mark_entry_appended b.model b.size
            (Backend.llm_select_slot b.size llmRes st.twin).1 _ now h0
        · intro sid hsid
          rw [← hres] at hsid
          rw [← hst]
          exact llm_select_slot_occupies hsid
  · intro plate llmRes now st b hne hb hnone
    constructor
    · unfold Backend.entry_recognition_agent
      simp only [if_neg hne, hb]
    · unfold Backend.entry_recognition_agent
      simp only [if_neg hne, hb]
      exact hnone

/-- A backend state with a pending booking for plate KA05AB1 and one free
matching slot. -/
def bstC9 : Backend.State :=
  ⟨⟨[⟨1, "small", 3, "free"⟩]⟩, [⟨"KA05AB1", "sedan", "small", none, "pending"⟩], []⟩

/-- A backend state with a pending booking for a small vehicle but only a
free large slot: under strict size matching no slot can be assigned, yet
the run still ends `"entered"` with a null slot id. -/
def bstC9NoSlot : Backend.State :=
  ⟨⟨[⟨1, "large", 3, "free"⟩]⟩, [⟨"KA05AB1", "sedan", "small", none, "pending"⟩], []⟩

theorem C9_amended_persist_effects_witness :
    (∃ pl i price0,
      (Root.entry_recognition_agent payloadC9 none false none 50 1 stC9).1.plate
        = some pl ∧
      (Root.entry_recognition_agent payloadC9 none false none 50 1 stC9).1.slot_id
        = some i ∧
      (Root.entry_recognition_agent payloadC9 none false none 50 1 stC9).1.price
        = some price0 ∧
      (∀ s ∈ (Root.entry_recognition_agent payloadC9 none false none 50 1 stC9).2.twin.slots,
        s.id = i → s.status = "occupied") ∧
      (∃ e ∈ (Root.entry_recognition_agent payloadC9 none false none 50 1 stC9).2.db.entries,
        e.plate = pyUpper pl ∧ e.price = price0) ∧
      (Root.get_booking_by_plate pl stC9.db.bookings = none →
        ∃ b ∈ (Root.entry_recognition_agent payloadC9 none false none 50 1 stC9).2.db.bookings,
          b.plate = pyUpper pl ∧ b.status = "pending") ∧
      (∀ b0, Root.get_booking_by_plate pl stC9.db.bookings = some b0 →
        b0.status = "pending" ∨ b0.status = "assigned" →
        ∀ b ∈ (Root.entry_recognition_agent payloadC9 none false none 50 1 stC9).2.db.bookings,
          b.plate = pyUpper pl → b.status = "assigned")) ∧
    (∃ price0,
      (Backend.entry_recognition_agent (some "KA05AB1") none "t" bstC9).1.price
        = some price0 ∧
      (∀ b ∈ (Backend.entry_recognition_agent (some "KA05AB1") none "t" bstC9).2.bookings,
        b.plate = "KA05AB1" → b.status = "entered") ∧
      (openEntryCountFor "KA05AB1" bstC9.entries = 0 →
        ∃ e ∈ (Backend.entry_recognition_agent (some "KA05AB1") none "t" bstC9).2.entries,
          e.plate = "KA05AB1" ∧ e.price = price0 ∧
            e.slot_id
              = (Backend.entry_recognition_agent (some "KA05AB1") none "t" bstC9).1.slot_id) ∧
      (∀ sid, (Backend.entry_recognition_agent (some "KA05AB1") none "t" bstC9).1.slot_id
          = some sid →
        ∃ s ∈ (Backend.entry_recognition_agent (some "KA05AB1") none "t" bstC9).2.twin.slots,
          s.id = sid ∧ s.status = "occupied")) ∧
    (Backend.entry_recognition_agent (some "KA05AB1") none "t" bstC9NoSlot).1.status
      = "entered" ∧
    (Backend.entry_recognition_agent (some "KA05AB1") none "t" bstC9NoSlot).1.slot_id
      = none :=
  ⟨C9_amended_persist_effects.1 payloadC9 none false none 50 1 stC9 _ _ rfl (by decide),
   C9_amended_persist_effects.2.1 "KA05AB1" none "t" bstC9 _ _ rfl (by decide),
   C9_amended_persist_effects.2.2 "KA05AB1" none "t" bstC9NoSlot
     ⟨"KA05AB1", "sedan", "small", none, "pending"⟩
     (by decide) (by decide) (by decide)⟩
